import Mathlib

/-!
Verification of the cleanup service (`pkg/services/cleanup/cleanup.go`).

The Go code is shallowly embedded: time instants and durations are `Int`
values in seconds, the filesystem directory is a list of `FileInfo`
records, and the database table of user invites is a list of `created_at`
timestamps.  The scheduler loop `Run` is modelled as a function over a
list of signals (timer ticks and context cancellation), producing the
trace of operations it performs together with its return value.
-/

namespace Cleanup

/-- A directory entry, as seen through `ioutil.ReadDir`: a name plus the
last-modification timestamp (`os.FileInfo.ModTime`), in seconds. -/
structure FileInfo where
  name : String
  modTime : Int
  deriving Repr, DecidableEq

/-- Embeds `shouldCleanupTempFile(filemtime, now)` with the configured
`Cfg.TempDataLifetime` made an explicit argument: returns `false` when the
lifetime is zero, otherwise `filemtime.Add(lifetime).Before(now)`,
i.e. `filemtime + lifetime < now` (strict). -/
def shouldCleanupTempFile (filemtime now tempDataLifetime : Int) : Bool :=
  if tempDataLifetime = 0 then
    false
  else
    decide (filemtime + tempDataLifetime < now)

/-- The key/value pairs of the debug log emitted at the end of
`cleanUpTmpFiles`: `"deleted", len(toDelete), "kept", len(files)`. -/
structure CleanupLogRecord where
  deleted : Nat
  kept : Nat
  deriving Repr, DecidableEq

/-- Embeds `cleanUpTmpFiles`.  `dir = none` models the early returns
(images directory missing, or `ReadDir` failing); `removeOk f` models
whether `os.Remove` succeeds for file `f` (a failed removal is logged and
the file stays in the directory).  Returns the directory state after the
pass together with the emitted log record (if any). -/
def cleanUpTmpFiles (tempDataLifetime now : Int) (removeOk : String → Bool)
    (dir : Option (List FileInfo)) :
    Option (List FileInfo) × Option CleanupLogRecord :=
  match dir with
  | none => (none, none)
  | some files =>
    let toDelete := files.filter fun f =>
      shouldCleanupTempFile f.modTime now tempDataLifetime
    let remaining := files.filter fun f =>
      !(shouldCleanupTempFile f.modTime now tempDataLifetime && removeOk f.name)
    (some remaining, some ⟨toDelete.length, files.length⟩)

/-- The delete command built by `deleteOldLoginAttempts`:
`OlderThan = time.Now().Add(time.Minute * -10)`. -/
structure DeleteOldLoginAttemptsCommand where
  olderThan : Int
  deriving Repr, DecidableEq

/-- Embeds `deleteOldLoginAttempts` at the level of the command it
dispatches on the bus: when `Cfg.DisableBruteForceLoginProtection` is set
the function returns immediately and no command is dispatched (`none`);
otherwise it dispatches a command with cutoff `now - 10 minutes`. -/
def deleteOldLoginAttempts (disableBruteForceLoginProtection : Bool)
    (now : Int) : Option DeleteOldLoginAttemptsCommand :=
  if disableBruteForceLoginProtection then
    none
  else
    some ⟨now - 10 * 60⟩

/-- The cutoff used by `deleteExpiredUserInvites`:
`createdBefore = time.Now().Add(-maxInviteLifetime)` where
`maxInviteLifetime = Duration(Cfg.UserInviteMaxLifetimeDays) * 24 * time.Hour`. -/
def userInviteCutoff (userInviteMaxLifetimeDays now : Int) : Int :=
  now - userInviteMaxLifetimeDays * 24 * 3600

/-- Embeds `deleteExpiredUserInvites`.  The invite table is the list of
`created_at` timestamps (Unix seconds) of the `temp_user` rows; the SQL
statement deletes every row with `created_at <= createdBefore`.
`execOk` models whether `dbSession.Exec` succeeds and `rowsAffectedOk`
whether `res.RowsAffected()` succeeds (a standard driver reports 0
affected rows together with the error).  Returns the table after the
call, the `affected` count returned to the caller, and the error returned
to the caller. -/
def deleteExpiredUserInvites (userInviteMaxLifetimeDays now : Int)
    (rows : List Int) (execOk rowsAffectedOk : Bool) :
    List Int × Nat × Option String :=
  if !execOk then
    (rows, 0, some "exec failed")
  else
    let createdBefore := userInviteCutoff userInviteMaxLifetimeDays now
    let remaining := rows.filter fun c => !(decide (c ≤ createdBefore))
    let affected := (rows.filter fun c => decide (c ≤ createdBefore)).length
    if !rowsAffectedOk then
      (remaining, 0, none)
    else
      (remaining, affected, none)

/-- One observable operation of the scheduler loop `Run`. -/
inductive Event where
  | tmpFileCleanup
  | snapshotDeletion
  | dashboardVersionDeletion
  | userInviteDeletion
  | loginAttemptCleanup
  | lockAcquisitionError
  deriving Repr, DecidableEq

/-- The tick interval of `Run`: `time.NewTicker(time.Minute * 10)`,
in seconds. -/
def tickInterval : Int := 10 * 60

/-- The lease passed to `ServerLockService.LockAndExecute` for the
"delete old login attempts" operation: `time.Minute * 10`, in seconds. -/
def loginAttemptsLockLease : Int := 10 * 60

/-- Modelled from the spec: the distributed lock collaborator
`ServerLockService.LockAndExecute(name, leaseDuration, body)`
(`pkg/infra/serverlock`, whose source is not part of this tree) runs the
body on at most one instance within the lease window and returns an error
if the lock cannot be acquired, in which case the body is not executed.
`granted` is the coordinator's decision for this call; the result is the
trace of the body (empty when denied) and the returned error. -/
def lockAndExecute (granted : Bool) (leaseSeconds : Int)
    (body : List Event) : List Event × Option String :=
  if granted then (body, none)
  else ([], some "failed to get lock")

/-- The sequence of operations performed by one `ticker.C` arm of the
`select` in `Run`: the four unguarded deletes in program order, then the
lock-guarded login-attempt delete; when the lock is denied `Run` logs
"failed to lock and execute cleanup of old login attempts". -/
def tickEvents (lockGranted : Bool) : List Event :=
  let lockRes := lockAndExecute lockGranted loginAttemptsLockLease
    [Event.loginAttemptCleanup]
  [Event.tmpFileCleanup, Event.snapshotDeletion,
   Event.dashboardVersionDeletion, Event.userInviteDeletion]
  ++ lockRes.1
  ++ (match lockRes.2 with
      | some _ => [Event.lockAcquisitionError]
      | none => [])

/-- One wake-up of the `select` in `Run`: either the ticker fires (with
the lock coordinator's decision for that tick) or the context is
cancelled with a given reason (`ctx.Err()`). -/
inductive Signal where
  | tick (lockGranted : Bool)
  | cancelled (reason : String)
  deriving Repr, DecidableEq

/-- The `for { select { ... } }` loop of `Run`, driven by a finite list
of signals.  Returns the trace of operations performed and, when a
cancellation signal was consumed, the value `Run` returns (`ctx.Err()`). -/
def runLoop : List Signal → List Event × Option String
  | [] => ([], none)
  | Signal.tick granted :: rest =>
    let tail := runLoop rest
    (tickEvents granted ++ tail.1, tail.2)
  | Signal.cancelled reason :: _ => ([], some reason)

/-- Embeds `Run`: one `cleanUpTmpFiles` pass up front, then the ticker
loop. -/
def run (signals : List Signal) : List Event × Option String :=
  let tail := runLoop signals
  (Event.tmpFileCleanup :: tail.1, tail.2)

/-- The commands dispatched for the login-attempt step of a tick: the
guarded body `deleteOldLoginAttempts` runs only when the lock is granted,
and dispatches at most one command. -/
def loginAttemptDispatches (lockGranted disableBruteForceLoginProtection : Bool)
    (now : Int) : List DeleteOldLoginAttemptsCommand :=
  if lockGranted then
    (deleteOldLoginAttempts disableBruteForceLoginProtection now).toList
  else
    []

/-- Projects the "deleted" count out of an optional log record. -/
def deletedCount (r : Option CleanupLogRecord) : Nat :=
  match r with
  | none => 0
  | some l => l.deleted

/-! ### Helper lemmas -/

theorem filter_not_then_filter {α : Type} (p : α → Bool) (l : List α) :
    (l.filter fun a => !p a).filter p = [] := by
  induction l with
  | nil => rfl
  | cons a t ih =>
    cases hp : p a <;> simp [List.filter_cons, hp, ih]

theorem runLoop_ticks (ticks : List Bool) :
    runLoop (ticks.map Signal.tick) = (ticks.flatMap tickEvents, none) := by
  induction ticks with
  | nil => rfl
  | cons g t ih => simp [runLoop, ih, List.flatMap_cons]

theorem runLoop_ticks_then_cancel (ticks : List Bool) (reason : String)
    (rest : List Signal) :
    runLoop (ticks.map Signal.tick ++ Signal.cancelled reason :: rest) =
      (ticks.flatMap tickEvents, some reason) := by
  induction ticks with
  | nil => rfl
  | cons g t ih => simp [runLoop, ih, List.flatMap_cons]

/-! ### Claims -/

/-- C1, counterexample: at lifetime `L = 1` and age `A = now - modTime = 1`
(so `A ≥ L`), the code does **not** delete the file, because
`filemtime.Add(lifetime).Before(now)` is strict; the claimed
"deleted iff `A ≥ L`" fails at `A = L`. -/
theorem shouldCleanupTempFile_exact_age_cex :
    ¬ ((shouldCleanupTempFile 0 1 1 = true) ↔ ((1 : Int) ≤ 1)) := by
  decide

/-- C1 (amended): for every lifetime `L > 0` and age `A = now - modTime`,
the file is deleted iff `A > L` (strictly older than the lifetime); for
`L = 0` the file is never deleted, regardless of `A`. -/
theorem shouldCleanupTempFile_age_strict (L A filemtime now : Int)
    (hL : 0 < L) (hA : now - filemtime = A) :
    (shouldCleanupTempFile filemtime now L = true ↔ L < A) ∧
      shouldCleanupTempFile filemtime now 0 = false := by
  constructor
  · simp only [shouldCleanupTempFile, if_neg hL.ne', decide_eq_true_eq]
    omega
  · simp [shouldCleanupTempFile]

/-- Witness for C1 (amended) at `L = 2`, `modTime = 0`, `now = 3`, `A = 3`. -/
theorem shouldCleanupTempFile_age_strict_witness :
    (shouldCleanupTempFile 0 3 2 = true ↔ (2 : Int) < 3) ∧
      shouldCleanupTempFile 0 3 0 = false :=
  shouldCleanupTempFile_age_strict 2 3 0 3 (by decide) (by decide)

/-- C2, counterexample: the configured lifetime is a (signed) duration;
at `lifetime = -1`, `modTime = 0`, `now = 0` the function returns `true`
(the file is deleted) although `lifetime > 0` is false, refuting
"deleted only if `lifetime > 0` and `now - modTime ≥ lifetime`". -/
theorem shouldCleanupTempFile_negative_lifetime_cex :
    shouldCleanupTempFile 0 0 (-1) = true ∧ ¬ ((0 : Int) < -1) := by
  decide

/-- C2 (amended): `shouldCleanupTempFile` returns `false` unconditionally
when the lifetime is zero, and otherwise returns `true` iff
`modTime + lifetime < now`; consequently a temp file is deleted only if
`lifetime ≠ 0` and `now - modTime ≥ lifetime`. -/
theorem shouldCleanupTempFile_spec (filemtime now L : Int) :
    shouldCleanupTempFile filemtime now 0 = false ∧
      (L ≠ 0 →
        (shouldCleanupTempFile filemtime now L = true ↔ filemtime + L < now)) ∧
      (shouldCleanupTempFile filemtime now L = true →
        L ≠ 0 ∧ L ≤ now - filemtime) := by
  refine ⟨by simp [shouldCleanupTempFile],
    fun h => by simp [shouldCleanupTempFile, h], fun h => ?_⟩
  by_cases hL : L = 0
  · simp [shouldCleanupTempFile, hL] at h
  · simp only [shouldCleanupTempFile, if_neg hL, decide_eq_true_eq] at h
    omega

/-- Witness for C2 (amended) at `modTime = 0`, `now = 5`, `L = 3`. -/
theorem shouldCleanupTempFile_spec_witness :
    (shouldCleanupTempFile 0 5 3 = true ↔ (0 : Int) + 3 < 5) ∧
      ((3 : Int) ≠ 0 ∧ (3 : Int) ≤ 5 - 0) :=
  ⟨(shouldCleanupTempFile_spec 0 5 3).2.1 (by decide),
   (shouldCleanupTempFile_spec 0 5 3).2.2 (by decide)⟩

/-- C3: `Run` performs exactly one temp-file cleanup pass before any tick
(with zero ticks the trace is exactly that one pass, and on any signal
list the first operation is the temp-file cleanup); each tick whose lock
is granted contributes exactly the five operations in the fixed order
temp files, snapshots, dashboard versions, user invites, login attempts,
and a run over any tick sequence is the startup pass followed by the
concatenation of the per-tick sequences. -/
theorem run_startup_and_tick_order (signals : List Signal) (ticks : List Bool) :
    run [] = ([Event.tmpFileCleanup], none) ∧
      (run signals).1.head? = some Event.tmpFileCleanup ∧
      tickEvents true = [Event.tmpFileCleanup, Event.snapshotDeletion,
        Event.dashboardVersionDeletion, Event.userInviteDeletion,
        Event.loginAttemptCleanup] ∧
      run (ticks.map Signal.tick) =
        (Event.tmpFileCleanup :: ticks.flatMap tickEvents, none) := by
  refine ⟨rfl, by simp [run], by decide, ?_⟩
  simp [run, runLoop_ticks]

/-- C4: the login-attempt delete is guarded by a lock whose lease equals
the tick interval; on a tick where the lock is denied, the other four
operations still run in order, the guarded body is not invoked at all,
and exactly one lock-acquisition error is logged (no retry within the
tick). -/
theorem lock_denied_tick :
    loginAttemptsLockLease = tickInterval ∧
      tickEvents false = [Event.tmpFileCleanup, Event.snapshotDeletion,
        Event.dashboardVersionDeletion, Event.userInviteDeletion,
        Event.lockAcquisitionError] ∧
      Event.loginAttemptCleanup ∉ tickEvents false ∧
      (tickEvents false).count Event.lockAcquisitionError = 1 := by
  refine ⟨rfl, by decide, by decide, by decide⟩

/-- C5: when a cancellation signal arrives after a sequence of ticks,
`Run` returns the cancellation reason (`ctx.Err()`) as its result, every
tick that fired before the cancellation contributed its complete sequence
of operations to the trace, and nothing after the cancellation signal is
processed. -/
theorem run_cancellation (ticks : List Bool) (reason : String)
    (rest : List Signal) :
    run (ticks.map Signal.tick ++ Signal.cancelled reason :: rest) =
      (Event.tmpFileCleanup :: ticks.flatMap tickEvents, some reason) := by
  simp [run, runLoop_ticks_then_cancel]

/-- C6: with lifetime 1 hour and current time `T`, a pass over a
directory holding exactly file `A` (modified at `T - 2h`) and file `B`
(modified at `T - 30m`) deletes `A` and keeps `B` — but the emitted log
record is `deleted = 1`, `kept = 2`: the code logs `len(files)` (the
total file count) under the key `"kept"`, not the number of files kept,
contradicting the claimed `kept = 1`. -/
theorem cleanUpTmpFiles_scenario (T : Int) :
    cleanUpTmpFiles 3600 T (fun _ => true)
        (some [⟨"A", T - 7200⟩, ⟨"B", T - 1800⟩]) =
      (some [⟨"B", T - 1800⟩], some ⟨1, 2⟩) := by
  have hA : T - 7200 + 3600 < T := by omega
  have hB : ¬ (T - 1800 + 3600 < T) := by omega
  simp [cleanUpTmpFiles, shouldCleanupTempFile, hA, hB]

/-- C7: the temp-file cleanup is idempotent: starting from any directory
listing, when every removal of the first pass succeeds, a second pass at
the same instant leaves the directory unchanged and its log reports zero
deleted files. -/
theorem cleanUpTmpFiles_idempotent (tempDataLifetime now : Int)
    (files : List FileInfo) :
    (cleanUpTmpFiles tempDataLifetime now (fun _ => true)
        (cleanUpTmpFiles tempDataLifetime now (fun _ => true)
          (some files)).1).1 =
      (cleanUpTmpFiles tempDataLifetime now (fun _ => true) (some files)).1 ∧
    deletedCount (cleanUpTmpFiles tempDataLifetime now (fun _ => true)
        (cleanUpTmpFiles tempDataLifetime now (fun _ => true)
          (some files)).1).2 = 0 := by
  simp only [cleanUpTmpFiles, Bool.and_true, deletedCount]
  constructor
  · congr 1
    apply List.filter_eq_self.mpr
    intro a ha
    exact List.mem_filter.mp ha |>.2
  · rw [filter_not_then_filter]
    rfl

/-- C8: with a configured user-invite max lifetime of 3 days, the delete
uses the cutoff `now - 3 days`; an invite created at `now - 4d` is
deleted and an invite created at `now - 2d` is kept, with one affected
row and no error. -/
theorem deleteExpiredUserInvites_scenario (now : Int) :
    userInviteCutoff 3 now = now - 3 * 86400 ∧
      deleteExpiredUserInvites 3 now [now - 4 * 86400, now - 2 * 86400]
          true true =
        ([now - 2 * 86400], 1, none) := by
  have hcut : userInviteCutoff 3 now = now - 3 * 86400 := by
    simp [userInviteCutoff]
  have h4 : now - 345600 ≤ now - 259200 := by omega
  have h2 : ¬ (now - 172800 ≤ now - 259200) := by omega
  refine ⟨hcut, ?_⟩
  simp [deleteExpiredUserInvites, userInviteCutoff, h4, h2]

/-- C9: when `Cfg.DisableBruteForceLoginProtection` is set,
`deleteOldLoginAttempts` dispatches no delete command, so no
login-attempt records are deleted, even when the distributed lock was
granted. -/
theorem deleteOldLoginAttempts_disabled (lockGranted : Bool) (now : Int) :
    deleteOldLoginAttempts true now = none ∧
      loginAttemptDispatches lockGranted true now = [] := by
  cases lockGranted <;>
    simp [deleteOldLoginAttempts, loginAttemptDispatches]

/-- C10: in `deleteExpiredUserInvites`, when the delete statement
succeeds but `res.RowsAffected()` fails, the function returns a `nil`
error and an affected count of 0 to its caller. -/
theorem deleteExpiredUserInvites_rowsAffected_failure
    (userInviteMaxLifetimeDays now : Int) (rows : List Int) :
    (deleteExpiredUserInvites userInviteMaxLifetimeDays now rows
        true false).2.1 = 0 ∧
      (deleteExpiredUserInvites userInviteMaxLifetimeDays now rows
        true false).2.2 = none := by
  simp [deleteExpiredUserInvites]

end Cleanup
